import Mathlib

/-!
# Verification of the `chain-of-trust` DNSSEC delegation walker

Shallow embedding of the three source modules (`zone_iterator.rs`,
`querier.rs`, `main.rs`) of the `frelon/chain-of-trust` repository, together
with proofs of the specified properties.

DNS names, records and responses come from an external DNS library; the
embedding models them as the source consumes them: a name is its sequence of
labels (leftmost label first), a record carries an owner name and optional
decoded data, a response carries its three ordered record sections.  The
library maintains the invariant that the type of a record matches its decoded
data, so the record type is derived from the data here.  Rust `panic!`
(a failed `unwrap`) is modelled as `Option.none` at the point where the
source can panic; Rust `Result` is modelled as `Except`.
-/

set_option autoImplicit false

/-- A DNS name, modelled as its list of labels, leftmost label first.
The root name has the empty label list.  (From the external DNS library,
as consumed by `zone_iterator.rs`: only `num_labels` and `trim_to` are
used by the source.) -/
structure Name where
  labels : List String
  deriving DecidableEq, Repr

/-- Source method `Name::num_labels`: the number of labels in the name. -/
def Name.num_labels (n : Name) : Nat :=
  n.labels.length

/-- Source method `Name::trim_to(len)`: keep only the rightmost `len` labels; a `len`
of at least the label count returns the name unchanged. -/
def Name.trim_to (n : Name) (len : Nat) : Name :=
  if n.labels.length > len then ⟨n.labels.drop (n.labels.length - len)⟩ else n

/-- Whether `origin` is a label-suffix of `target`. -/
def Name.isLabelSuffixOf (origin target : Name) : Prop :=
  origin.labels <:+ target.labels

instance (o t : Name) : Decidable (o.isLabelSuffixOf t) :=
  inferInstanceAs (Decidable (o.labels <:+ t.labels))

/-! ## `zone_iterator.rs` -/

/-- The state of `ZoneIterator`: the target name and the current level
(number of labels of the child yielded so far). -/
structure ZoneIterator where
  target : Name
  current_level : Nat
  deriving DecidableEq, Repr

/-- Source method `ZoneIterator::next`: while the current level is below the
label count of the target, advance one level and yield the pair of truncations of the
target to the previous and to the new level. -/
def ZoneIterator.next (it : ZoneIterator) : Option ((Name × Name) × ZoneIterator) :=
  if it.current_level ≥ it.target.num_labels then
    none
  else
    some ((it.target.trim_to it.current_level, it.target.trim_to (it.current_level + 1)),
      ⟨it.target, it.current_level + 1⟩)

/-- Exhaust a `ZoneIterator` into the list of pairs it yields (this is how
`main.rs` consumes it, one pair at a time in a `for` loop). -/
def ZoneIterator.run (it : ZoneIterator) : List (Name × Name) :=
  if _h : it.current_level ≥ it.target.num_labels then
    []
  else
    (it.target.trim_to it.current_level, it.target.trim_to (it.current_level + 1)) ::
      ZoneIterator.run ⟨it.target, it.current_level + 1⟩
termination_by it.target.num_labels - it.current_level
decreasing_by
  simp only [Name.num_labels] at *
  omega

/-- Source function `zone_iterator::iter`: start the iterator at the label
count of the origin. -/
def iter (name : Name) (origin : Name) : ZoneIterator :=
  { target := name, current_level := origin.num_labels }

/-! ## Addresses and nameservers (`querier.rs`) -/

/-- An IP address: either IPv4 or IPv6, the numeric address payload
modelled as a natural number. -/
inductive IpAddr where
  | v4 (addr : Nat)
  | v6 (addr : Nat)
  deriving DecidableEq, Repr

/-- Source method `IpAddr::is_ipv4`. -/
def IpAddr.is_ipv4 : IpAddr → Bool
  | .v4 _ => true
  | .v6 _ => false

/-- Source method `IpAddr::is_ipv6`. -/
def IpAddr.is_ipv6 : IpAddr → Bool
  | .v4 _ => false
  | .v6 _ => true

/-- Source type `IpFamilyMode`: the address-family selection policy. -/
inductive IpFamilyMode where
  | Any
  | Ipv4
  | Ipv6
  deriving DecidableEq, Repr

/-- Source type `Nameserver`: a nameserver name together with its resolved addresses. -/
structure Nameserver where
  name : Name
  addresses : List IpAddr
  deriving DecidableEq, Repr

/-- Source alias `Nameservers = Vec<Nameserver>`. -/
abbrev Nameservers := List Nameserver

/-- The inner loop of `random_address`: scan the addresses of one nameserver
in order; `Any` accepts the first address, `Ipv4` accepts the first IPv4
address, `Ipv6` the first IPv6 address. -/
def select_from_addrs (mode : IpFamilyMode) : List IpAddr → Option IpAddr
  | [] => none
  | addr :: rest =>
    if mode = IpFamilyMode.Any then some addr
    else if addr.is_ipv4 ∧ mode = IpFamilyMode.Ipv4 then some addr
    else if addr.is_ipv6 ∧ mode = IpFamilyMode.Ipv6 then some addr
    else select_from_addrs mode rest

/-- Source function `random_address`: scan nameservers in list order, and within each its
addresses in order; return the first address accepted by the family mode. -/
def random_address : Nameservers → IpFamilyMode → Option IpAddr
  | [], _ => none
  | ns :: rest, mode =>
    match select_from_addrs mode ns.addresses with
    | some addr => some addr
    | none => random_address rest mode

/-- Spec-side formulation of the family-mode filter, following the words of
the spec: `Any` accepts any address; `Ipv4`-only and `Ipv6`-only skip
addresses of the other family. -/
def specFamilyMatches (mode : IpFamilyMode) (addr : IpAddr) : Bool :=
  match mode with
  | .Any => true
  | .Ipv4 => addr.is_ipv4
  | .Ipv6 => addr.is_ipv6

/-- Spec-side formulation of `selectAddress`: the first address, in
nameserver-list then per-nameserver address order, satisfying the family
mode. -/
def specSelectAddress (nameservers : Nameservers) (mode : IpFamilyMode) : Option IpAddr :=
  (nameservers.map Nameserver.addresses).flatten.find? (specFamilyMatches mode)

/-! ## DNS records and responses (the external resolution interface) -/

/-- A DS record: key tag, algorithm identifier, digest type and digest.
The source reads only `key_tag` and `algorithm`. -/
structure DS where
  key_tag : Nat
  algorithm : Nat
  digest_type : Nat
  digest : List Nat
  deriving DecidableEq, Repr

/-- A DNSKEY record: flags, algorithm identifier and the public key
material (a byte sequence). -/
structure DNSKEY where
  flags : Nat
  algorithm : Nat
  public_key : List Nat
  deriving DecidableEq, Repr

/-- One step of the RFC 4034 Appendix B key-tag accumulation: bytes at
even positions are added shifted by 8 bits, bytes at odd positions as is. -/
def keytag_fold : List Nat → Bool → Nat → Nat
  | [], _, ac => ac
  | b :: rest, at_even, ac =>
    keytag_fold rest (!at_even) (ac + if at_even then b % 256 * 256 else b % 256)

/-- The wire encoding of a DNSKEY rdata: flags (two bytes, big endian),
protocol (always 3), algorithm (one byte), then the key material. -/
def DNSKEY.encoded (k : DNSKEY) : List Nat :=
  [k.flags / 256 % 256, k.flags % 256, 3, k.algorithm % 256] ++ k.public_key

/-- Modelled from the spec: `DNSKEY::calculate_key_tag`, a method of the
external DNS library on the key-material record; the spec describes it as
the standard sum-based checksum over the encoded key (RFC 4034 Appendix B),
yielding an unsigned 16-bit tag. -/
def DNSKEY.calculate_key_tag (k : DNSKEY) : Nat :=
  let ac := keytag_fold k.encoded true 0
  (ac + ac / 65536) % 65536

/-- The DNSSEC rdata variants the source inspects. -/
inductive DNSSECRData where
  | ds (record : DS)
  | dnskey (record : DNSKEY)
  | other_dnssec
  deriving DecidableEq, Repr

/-- Decoded record data, as exposed by the resolution interface: the
source inspects NS targets, A/AAAA addresses and DNSSEC rdata; every other
record type is opaque. -/
inductive RData where
  | ns (target : Name)
  | a (addr : Nat)
  | aaaa (addr : Nat)
  | dnssec (rdata : DNSSECRData)
  | other_rdata
  deriving DecidableEq, Repr

/-- Source method `RData::as_ns`. -/
def RData.as_ns : RData → Option Name
  | .ns target => some target
  | _ => none

/-- Source method `RData::as_dnssec`. -/
def RData.as_dnssec : RData → Option DNSSECRData
  | .dnssec rdata => some rdata
  | _ => none

/-- Source method `DNSSECRData::as_ds`. -/
def DNSSECRData.as_ds : DNSSECRData → Option DS
  | .ds record => some record
  | _ => none

/-- Source method `DNSSECRData::as_dnskey`. -/
def DNSSECRData.as_dnskey : DNSSECRData → Option DNSKEY
  | .dnskey record => some record
  | _ => none

/-- A resource record: owner name and optional decoded data.  The library
keeps the type field of a record consistent with its decoded data, so the
type is derived from the data rather than stored. -/
structure Record where
  name : Name
  data : Option RData
  deriving DecidableEq, Repr

/-- A decoded DNS response with its three ordered record sections
(`answers`, `name_servers` = authority, `additionals`). -/
structure DnsResponse where
  answers : List Record
  name_servers : List Record
  additionals : List Record
  deriving DecidableEq, Repr

/-! ## Zone resolution (`querier.rs`) -/

/-- Source function `into_address`: an A record yields its IPv4 address, an AAAA record
its IPv6 address, anything else (including a record with no data) yields
nothing.  The source dispatches on the type field of the record and unwraps the
corresponding data accessor; by the library invariant the type field
matches the data, so the dispatch is on the data itself here. -/
def into_address (record : Record) : Option IpAddr :=
  match record.data with
  | some (RData.a addr) => some (IpAddr.v4 addr)
  | some (RData.aaaa addr) => some (IpAddr.v6 addr)
  | _ => none

/-- The loop of `to_ns`: for each record of the chained answer and
authority sections whose data is an NS record, push one `Nameserver` whose
addresses are the additional-section records owned by the NS target name,
converted by `into_address`. -/
def to_ns_records (additionals : List Record) : List Record → Nameservers
  | [] => []
  | record :: rest =>
    match record.data.bind RData.as_ns with
    | some ns =>
      { name := ns,
        addresses := (additionals.filter (fun x => decide (x.name = ns))).filterMap into_address } ::
        to_ns_records additionals rest
    | none => to_ns_records additionals rest

/-- Source function `to_ns`: build the nameserver list of a response. -/
def to_ns (response : DnsResponse) : Nameservers :=
  to_ns_records response.additionals (response.answers ++ response.name_servers)

/-- Source type `Zone`: a zone name and its nameservers. -/
structure Zone where
  name : Name
  nameservers : Nameservers
  deriving DecidableEq, Repr

/-- Source method `Querier::query_zone`, with the network externalised: the
response of the NS query is an input, and the zone is built from the queried
name and the nameservers of the response. -/
def query_zone (name : Name) (response : DnsResponse) : Zone :=
  { name := name, nameservers := to_ns response }

/-- The trust verdict for one delegation hop. -/
inductive Trust where
  | Trusted
  | Untrusted (reason : String)
  deriving DecidableEq, Repr

/-! ## Trust verification (`querier.rs`) -/

/-- The per-record extraction in `query_ds`:
`x.data().and_then(RData::as_dnssec).and_then(DNSSECRData::as_ds)`,
before the `unwrap`. -/
def ds_record_data (x : Record) : Option DS :=
  (x.data.bind RData.as_dnssec).bind DNSSECRData.as_ds

/-- The per-record extraction in `query_dnskey`, before the `unwrap`. -/
def dnskey_record_data (x : Record) : Option DNSKEY :=
  (x.data.bind RData.as_dnssec).bind DNSSECRData.as_dnskey

/-- Models `.map(|x| f(x).unwrap()).collect()`: extract every record, panicking
(`none`) as soon as any extraction fails. -/
def map_unwrap {α : Type} (f : Record → Option α) : List Record → Option (List α)
  | [] => some []
  | x :: rest =>
    match f x, map_unwrap f rest with
    | some a, some l => some (a :: l)
    | _, _ => none

/-- The DS-collection step of `query_ds` over the answer section. -/
def collect_ds (response : DnsResponse) : Option (List DS) :=
  map_unwrap ds_record_data response.answers

/-- The DNSKEY-collection step of `query_dnskey` over the answer section. -/
def collect_dnskey (response : DnsResponse) : Option (List DNSKEY) :=
  map_unwrap dnskey_record_data response.answers

/-- Source method `Querier::query_ds`, with the network externalised: select an address
from the nameservers of the parent (error "no name server address found"
if none), then collect the DS records of the answer section
(`ok none` models the panic on a non-DS answer record).  The child name is
only used to address the external query. -/
def query_ds (mode : IpFamilyMode) (parent : Zone) (_child : Name)
    (ds_response : DnsResponse) : Except String (Option (List DS)) :=
  match random_address parent.nameservers mode with
  | some _ => Except.ok (collect_ds ds_response)
  | none => Except.error "no name server address found"

/-- Source method `Querier::query_dnskey`, with the network externalised: select an
address from the nameservers of the child (error "no name server address
found" if none), then collect the DNSKEY records of the answer
section (`ok none` models the panic on a non-DNSKEY answer record). -/
def query_dnskey (mode : IpFamilyMode) (child : Zone)
    (dnskey_response : DnsResponse) : Except String (Option (List DNSKEY)) :=
  match random_address child.nameservers mode with
  | some _ => Except.ok (collect_dnskey dnskey_response)
  | none => Except.error "no name server address found"

/-- The inner loop of `query_trust`: does any DNSKEY match this DS record
(equal key tag, via the derived tag of the DNSKEY, and equal algorithm)? -/
def scan_dnskeys (ds : DS) : List DNSKEY → Bool
  | [] => false
  | dnskey :: rest =>
    if ds.key_tag = dnskey.calculate_key_tag ∧ ds.algorithm = dnskey.algorithm then true
    else scan_dnskeys ds rest

/-- The double loop of `query_trust`: first DS record with a matching
DNSKEY wins (`Trusted`); exhausting all DS records (in particular an empty
DS list) yields `Untrusted "missing DS"`. -/
def scan_ds : List DS → List DNSKEY → Trust
  | [], _ => Trust.Untrusted "missing DS"
  | ds :: rest, dnskey_records =>
    if scan_dnskeys ds dnskey_records then Trust.Trusted
    else scan_ds rest dnskey_records

/-- Source method `Querier::query_trust`, with the network externalised: run `query_ds`
against the parent, then `query_dnskey` against the child (an `Err` of
either propagates, in that order), then scan all DS/DNSKEY pairs.
`ok none` models a panic during record collection, which aborts the
process before any verdict. -/
def query_trust (mode : IpFamilyMode) (parent child : Zone)
    (ds_response dnskey_response : DnsResponse) : Except String (Option Trust) :=
  match query_ds mode parent child.name ds_response with
  | Except.error e => Except.error e
  | Except.ok none => Except.ok none
  | Except.ok (some ds_records) =>
    match query_dnskey mode child dnskey_response with
    | Except.error e => Except.error e
    | Except.ok none => Except.ok none
    | Except.ok (some dnskey_records) =>
      Except.ok (some (scan_ds ds_records dnskey_records))

/-! ## The walk driver (`main.rs`) -/

/-- The external responses one hop of the walk consumes: the child NS
query response for the child, and the DS and DNSKEY responses of the trust
check. -/
structure HopInput where
  ns_response : DnsResponse
  ds_response : DnsResponse
  dnskey_response : DnsResponse
  deriving DecidableEq, Repr

/-- What one hop reports: a trust verdict line or an error line. -/
inductive HopOutcome where
  | trust (verdict : Trust)
  | error (message : String)
  deriving DecidableEq, Repr

/-- The hop loop of `main`: for each (parent, child) pair, select an
address from the last known zone.  If none, report the error
"no usable address found for nameserver" and continue with the last known
zone unchanged.  Otherwise resolve the child zone (it becomes the new last
known zone regardless of the trust result), run the trust check of the old
zone against it, report the verdict or the error, and continue.  A panic
inside the trust check (`ok none`) aborts the whole process, ending the
output. -/
def walk (mode : IpFamilyMode) (last_zone : Zone) :
    List ((Name × Name) × HopInput) → List HopOutcome
  | [] => []
  | (pc, inp) :: rest =>
    match random_address last_zone.nameservers mode with
    | some _ =>
      let new_zone := query_zone pc.2 inp.ns_response
      match query_trust mode last_zone new_zone inp.ds_response inp.dnskey_response with
      | Except.ok (some t) => HopOutcome.trust t :: walk mode new_zone rest
      | Except.ok none => []
      | Except.error m => HopOutcome.error m :: walk mode new_zone rest
    | none =>
      HopOutcome.error "no usable address found for nameserver" :: walk mode last_zone rest

/-! ## Spec-side record collections -/

/-- Spec-side formulation: the DS records present in the answer section of
a response (records of other types ignored). -/
def specDsPresent (response : DnsResponse) : List DS :=
  response.answers.filterMap ds_record_data

/-- Spec-side formulation: the DNSKEY records present in the answer section
of a response (records of other types ignored). -/
def specDnskeyPresent (response : DnsResponse) : List DNSKEY :=
  response.answers.filterMap dnskey_record_data

/-- Spec-side formulation: the NS target names found scanning the answer
section followed by the authority section. -/
def specNsTargets (response : DnsResponse) : List Name :=
  (response.answers ++ response.name_servers).filterMap (fun r => r.data.bind RData.as_ns)

/-- Spec-side formulation: the A and AAAA records of the additional
section whose owner name equals `ns`, in section order, converted to
addresses; records of other types ignored. -/
def specGlueAddresses (response : DnsResponse) (ns : Name) : List IpAddr :=
  (response.additionals.filter (fun x => decide (x.name = ns))).filterMap into_address

/-! ## Concrete instances used in the examples and witnesses -/

/-- The response of the round-trip scenario of the spec: NS records for
`ns1.example.` and `ns2.example.` in the answer section, and glue
addresses 192.0.2.1 (A, owned by `ns1.example.`) and 2001:db8::1 (AAAA,
owned by `ns2.example.`) in the additional section. -/
def exampleNsResponse : DnsResponse :=
  { answers :=
      [ { name := ⟨["example"]⟩, data := some (RData.ns ⟨["ns1", "example"]⟩) },
        { name := ⟨["example"]⟩, data := some (RData.ns ⟨["ns2", "example"]⟩) } ],
    name_servers := [],
    additionals :=
      [ { name := ⟨["ns1", "example"]⟩, data := some (RData.a 0xC0000201) },
        { name := ⟨["ns2", "example"]⟩,
          data := some (RData.aaaa 0x20010DB8000000000000000000000001) } ] }

/-- A parent zone with one usable nameserver address. -/
def exampleParentZone : Zone :=
  { name := ⟨["example"]⟩,
    nameservers := [⟨⟨["ns1", "example"]⟩, [IpAddr.v4 0xC0000201]⟩] }

/-- A child zone with one usable nameserver address. -/
def exampleChildZone : Zone :=
  { name := ⟨["child", "example"]⟩,
    nameservers := [⟨⟨["ns", "child", "example"]⟩, [IpAddr.v4 0xC0000235]⟩] }

/-- A DNSKEY whose derived key tag is 2058. -/
def exampleDnskey : DNSKEY :=
  { flags := 256, algorithm := 8, public_key := [1, 2, 3] }

/-- A DS record carrying key tag 2058 and algorithm 8, matching
`exampleDnskey`. -/
def exampleDs : DS :=
  { key_tag := 2058, algorithm := 8, digest_type := 2, digest := [9, 9] }

/-- A DS response whose single answer record is `exampleDs`. -/
def exampleDsResponse : DnsResponse :=
  { answers :=
      [⟨⟨["child", "example"]⟩, some (RData.dnssec (DNSSECRData.ds exampleDs))⟩],
    name_servers := [],
    additionals := [] }

/-- A DNSKEY response whose single answer record is `exampleDnskey`. -/
def exampleDnskeyResponse : DnsResponse :=
  { answers :=
      [⟨⟨["child", "example"]⟩, some (RData.dnssec (DNSSECRData.dnskey exampleDnskey))⟩],
    name_servers := [],
    additionals := [] }

/-- A DS response whose answer section mixes a DS record with an A
record. -/
def exampleMixedDsResponse : DnsResponse :=
  { answers :=
      [ ⟨⟨["child", "example"]⟩, some (RData.dnssec (DNSSECRData.ds exampleDs))⟩,
        ⟨⟨["child", "example"]⟩, some (RData.a 0xC0000201)⟩ ],
    name_servers := [],
    additionals := [] }

/-- A zone whose single nameserver has no resolved address (glueless). -/
def exampleGluelessZone : Zone :=
  { name := ⟨["example"]⟩, nameservers := [⟨⟨["ns1", "example"]⟩, []⟩] }

/-- A bundle of per-hop responses used by the walk witnesses. -/
def exampleHopInput : HopInput :=
  { ns_response := exampleNsResponse,
    ds_response := exampleDsResponse,
    dnskey_response := exampleDnskeyResponse }

/-! ## Helper lemmas: the zone iterator -/

/-- Lemma: `ZoneIterator.run` is the unfolding of `ZoneIterator.next`. -/
theorem ZoneIterator.run_eq_next (it : ZoneIterator) :
    it.run = match it.next with
      | none => []
      | some (p, it2) => p :: it2.run := by
  rw [ZoneIterator.run, ZoneIterator.next]
  split <;> simp

theorem Name.num_labels_trim_to (n : Name) (k : Nat) :
    (n.trim_to k).num_labels = min k n.num_labels := by
  unfold Name.trim_to
  split <;> simp [Name.num_labels] <;> omega

theorem Name.trim_to_full (n : Name) (k : Nat) (h : n.num_labels ≤ k) :
    n.trim_to k = n := by
  unfold Name.trim_to
  rw [if_neg]
  simp only [Name.num_labels] at h
  omega

/-- Closed form of the pair sequence an iterator yields. -/
theorem ZoneIterator.run_closed (it : ZoneIterator) :
    it.run = (List.range (it.target.num_labels - it.current_level)).map
      (fun i => (it.target.trim_to (it.current_level + i),
        it.target.trim_to (it.current_level + i + 1))) := by
  obtain ⟨t, l⟩ := it
  simp only
  generalize hd : t.num_labels - l = d
  induction d generalizing l with
  | zero =>
    rw [ZoneIterator.run]
    rw [dif_pos (show l ≥ t.num_labels by omega)]
    simp
  | succ d ih =>
    rw [ZoneIterator.run]
    rw [dif_neg (show ¬ l ≥ t.num_labels by omega)]
    simp only
    rw [ih (l + 1) (by omega)]
    rw [List.range_succ_eq_map]
    simp only [List.map_cons, List.map_map, Nat.add_zero]
    refine congrArg₂ _ rfl ?_
    refine List.map_congr_left ?_
    intro i _
    simp only [Function.comp, Nat.succ_eq_add_one, Prod.mk.injEq]
    constructor <;> (congr 1; omega)

/-- Claim C2: for every target `T` and origin `O` where `O` is a label-suffix
of `T`, `iteratePath(T, O)` produces exactly `labels(T) - labels(O)` pairs;
the child of each pair is the truncation of `T` with exactly one more label
than its parent; the child of the final pair equals `T`; and when `T` has no more
labels than `O` (in particular when `T = O`) the sequence is empty. -/
theorem iteratePath_pairs_c2 (T O : Name) (_hsuf : O.isLabelSuffixOf T) :
    (iter T O).run.length = T.num_labels - O.num_labels
    ∧ (∀ p ∈ (iter T O).run,
        p.2 = T.trim_to (p.1.num_labels + 1) ∧ p.2.num_labels = p.1.num_labels + 1)
    ∧ (∀ p, (iter T O).run.getLast? = some p → p.2 = T)
    ∧ (T.num_labels ≤ O.num_labels → (iter T O).run = []) := by
  have hrc := ZoneIterator.run_closed (iter T O)
  simp only [iter] at hrc
  refine ⟨?_, ?_, ?_, ?_⟩
  · simp only [iter, hrc]
    simp
  · intro p hp
    simp only [iter, hrc] at hp
    simp only [List.mem_map, List.mem_range] at hp
    obtain ⟨i, hi, rfl⟩ := hp
    simp only [Name.num_labels_trim_to]
    constructor
    · congr 1
      omega
    · omega
  · intro p hp
    simp only [iter, hrc] at hp
    rw [List.getLast?_eq_getElem?] at hp
    simp only [List.length_map, List.length_range, List.getElem?_map] at hp
    by_cases hd : O.num_labels < T.num_labels
    · rw [List.getElem?_range (by omega)] at hp
      simp only [Option.map_some', Option.some.injEq] at hp
      subst hp
      simp only
      have heq : O.num_labels + (T.num_labels - O.num_labels - 1) + 1 = T.num_labels := by
        omega
      rw [heq]
      exact Name.trim_to_full T _ (Nat.le_refl _)
    · rw [Nat.sub_eq_zero_of_le (by omega)] at hp
      simp at hp
  · intro h
    simp only [iter, hrc]
    simp [Nat.sub_eq_zero_of_le h]

/-- Witness for C2 at target `child.example.` and origin `example.`. -/
theorem iteratePath_pairs_c2_witness :
    Name.isLabelSuffixOf ⟨["example"]⟩ ⟨["child", "example"]⟩ ∧
      (iter ⟨["child", "example"]⟩ ⟨["example"]⟩).run.length = 1 :=
  ⟨by decide, (iteratePath_pairs_c2 ⟨["child", "example"]⟩ ⟨["example"]⟩ (by decide)).1⟩

/-- Claim C10: the delegation path iterator depends on its origin argument
only through the label count of the origin — two origins with equal label counts
produce identical sequences — and every name in every yielded pair is a
label-boundary truncation of the target alone; no label-suffix check of the
origin against the target takes place (no such hypothesis is needed). -/
theorem iteratePath_origin_only_labels_c10 (T O₁ O₂ : Name)
    (h : O₁.num_labels = O₂.num_labels) :
    (iter T O₁).run = (iter T O₂).run
    ∧ ∀ p ∈ (iter T O₁).run, ∃ k, p = (T.trim_to k, T.trim_to (k + 1)) := by
  constructor
  · simp [iter, h]
  · intro p hp
    have hrc := ZoneIterator.run_closed (iter T O₁)
    simp only [iter] at hrc
    simp only [iter, hrc] at hp
    simp only [List.mem_map, List.mem_range] at hp
    obtain ⟨i, _, rfl⟩ := hp
    exact ⟨O₁.num_labels + i, rfl⟩

/-- Witness for C10 at two distinct one-label origins. -/
theorem iteratePath_origin_only_labels_c10_witness :
    Name.num_labels ⟨["com"]⟩ = Name.num_labels ⟨["org"]⟩ ∧
      (iter ⟨["a", "b"]⟩ ⟨["com"]⟩).run = (iter ⟨["a", "b"]⟩ ⟨["org"]⟩).run :=
  ⟨rfl, (iteratePath_origin_only_labels_c10 ⟨["a", "b"]⟩ ⟨["com"]⟩ ⟨["org"]⟩ rfl).1⟩

/-! ## Helper lemmas: address selection -/

/-- The inner loop of `random_address` is a first-match scan of one
address list of one nameserver under the family filter of the spec. -/
theorem select_from_addrs_eq_find? (mode : IpFamilyMode) (addrs : List IpAddr) :
    select_from_addrs mode addrs = addrs.find? (specFamilyMatches mode) := by
  induction addrs with
  | nil => rfl
  | cons addr rest ih =>
    cases mode <;> cases addr <;>
      simp [select_from_addrs, List.find?_cons, specFamilyMatches,
        IpAddr.is_ipv4, IpAddr.is_ipv6, ih]

/-- Refinement: `random_address` equals the `selectAddress` of the spec, the
first address
in nameserver-list order, then per-nameserver address order, satisfying
the family mode. -/
theorem random_address_eq_specSelectAddress (nss : Nameservers) (mode : IpFamilyMode) :
    random_address nss mode = specSelectAddress nss mode := by
  induction nss with
  | nil => rfl
  | cons ns rest ih =>
    rw [random_address, specSelectAddress]
    simp only [List.map_cons, List.flatten_cons, List.find?_append]
    rw [select_from_addrs_eq_find?, ih, specSelectAddress]
    cases h : ns.addresses.find? (specFamilyMatches mode) <;> simp [h, Option.or]

/-- Claim C3: `selectAddress` (`random_address`) scans nameservers in list
order and addresses in order, returning the first address satisfying the
family mode (`Any` accepts any address; `Ipv4`/`Ipv6` skip the other
family), and returns `none` exactly when no address in the list satisfies
the mode. -/
theorem selectAddress_first_match_c3 (nss : Nameservers) (mode : IpFamilyMode) :
    random_address nss mode = specSelectAddress nss mode
    ∧ (random_address nss mode = none ↔
        ∀ ns ∈ nss, ∀ addr ∈ ns.addresses, specFamilyMatches mode addr = false) := by
  refine ⟨random_address_eq_specSelectAddress nss mode, ?_⟩
  rw [random_address_eq_specSelectAddress, specSelectAddress, List.find?_eq_none]
  constructor
  · intro h ns hns addr haddr
    have hmem : addr ∈ (nss.map Nameserver.addresses).flatten := by
      simp only [List.mem_flatten, List.mem_map]
      exact ⟨ns.addresses, ⟨ns, hns, rfl⟩, haddr⟩
    simpa using h addr hmem
  · intro h addr haddr
    simp only [List.mem_flatten, List.mem_map] at haddr
    obtain ⟨as, ⟨ns, hns, rfl⟩, ha⟩ := haddr
    simp [h ns hns addr ha]

/-- Claim C8: `selectAddress` (`random_address`) is deterministic despite its
name: identical nameserver-list and family-mode inputs always give
identical outputs (the embedding is a pure function of those two inputs and
nothing else), and with mode `Ipv4` and only IPv6 addresses in the list the
result is empty. -/
theorem selectAddress_deterministic_c8 (nss₁ nss₂ : Nameservers)
    (mode₁ mode₂ : IpFamilyMode) (hns : nss₁ = nss₂) (hmode : mode₁ = mode₂) :
    random_address nss₁ mode₁ = random_address nss₂ mode₂
    ∧ ((∀ ns ∈ nss₁, ∀ addr ∈ ns.addresses, addr.is_ipv6 = true) →
        mode₁ = IpFamilyMode.Ipv4 → random_address nss₁ mode₁ = none) := by
  subst hns
  subst hmode
  refine ⟨rfl, ?_⟩
  intro hall hmode
  subst hmode
  rw [random_address_eq_specSelectAddress, specSelectAddress, List.find?_eq_none]
  intro addr haddr
  simp only [List.mem_flatten, List.mem_map] at haddr
  obtain ⟨as, ⟨ns, hns, rfl⟩, ha⟩ := haddr
  have h6 := hall ns hns addr ha
  cases addr <;> simp_all [specFamilyMatches, IpAddr.is_ipv4, IpAddr.is_ipv6]

/-- Witness for C8: one nameserver holding a single IPv6 address, queried
twice with mode `Ipv4`. -/
theorem selectAddress_deterministic_c8_witness :
    random_address [⟨⟨["ns1", "example"]⟩, [IpAddr.v6 1]⟩] IpFamilyMode.Ipv4 =
      random_address [⟨⟨["ns1", "example"]⟩, [IpAddr.v6 1]⟩] IpFamilyMode.Ipv4
    ∧ random_address [⟨⟨["ns1", "example"]⟩, [IpAddr.v6 1]⟩] IpFamilyMode.Ipv4 = none := by
  have h := selectAddress_deterministic_c8
    [⟨⟨["ns1", "example"]⟩, [IpAddr.v6 1]⟩] [⟨⟨["ns1", "example"]⟩, [IpAddr.v6 1]⟩]
    IpFamilyMode.Ipv4 IpFamilyMode.Ipv4 rfl rfl
  exact ⟨h.1, h.2 (by decide) rfl⟩

/-! ## Helper lemmas: the trust scan -/

theorem scan_dnskeys_eq_true_iff (ds : DS) (keys : List DNSKEY) :
    scan_dnskeys ds keys = true ↔
      ∃ dnskey ∈ keys,
        ds.key_tag = dnskey.calculate_key_tag ∧ ds.algorithm = dnskey.algorithm := by
  induction keys with
  | nil => simp [scan_dnskeys]
  | cons k rest ih =>
    rw [scan_dnskeys]
    split <;> rename_i h
    · constructor
      · intro _
        exact ⟨k, List.mem_cons_self k rest, h⟩
      · intro _
        rfl
    · rw [ih]
      constructor
      · rintro ⟨k2, hk2, hh⟩
        exact ⟨k2, List.mem_cons_of_mem _ hk2, hh⟩
      · rintro ⟨k2, hk2, hh⟩
        rcases List.mem_cons.mp hk2 with heq | hk2
        · subst heq
          exact absurd hh h
        · exact ⟨k2, hk2, hh⟩

theorem scan_ds_eq_trusted_iff (dss : List DS) (keys : List DNSKEY) :
    scan_ds dss keys = Trust.Trusted ↔
      ∃ ds ∈ dss, ∃ dnskey ∈ keys,
        ds.key_tag = dnskey.calculate_key_tag ∧ ds.algorithm = dnskey.algorithm := by
  induction dss with
  | nil => simp [scan_ds]
  | cons ds rest ih =>
    rw [scan_ds]
    split <;> rename_i h
    · constructor
      · intro _
        exact ⟨ds, List.mem_cons_self ds rest, (scan_dnskeys_eq_true_iff ds keys).mp h⟩
      · intro _
        rfl
    · rw [ih]
      constructor
      · rintro ⟨d, hd, hh⟩
        exact ⟨d, List.mem_cons_of_mem _ hd, hh⟩
      · rintro ⟨d, hd, hh⟩
        rcases List.mem_cons.mp hd with heq | hd
        · subst heq
          exact absurd ((scan_dnskeys_eq_true_iff d keys).mpr hh) h
        · exact ⟨d, hd, hh⟩

theorem scan_ds_trusted_or_untrusted (dss : List DS) (keys : List DNSKEY) :
    scan_ds dss keys = Trust.Trusted ∨ scan_ds dss keys = Trust.Untrusted "missing DS" := by
  induction dss with
  | nil => exact Or.inr rfl
  | cons ds rest ih =>
    rw [scan_ds]
    split
    · exact Or.inl rfl
    · exact ih

/-- When both sub-queries succeed, `query_trust` is the double scan of the
collected records. -/
theorem query_trust_ok (mode : IpFamilyMode) (parent child : Zone)
    (ds_response dnskey_response : DnsResponse)
    (ds_records : List DS) (dnskey_records : List DNSKEY)
    (hds : query_ds mode parent child.name ds_response = Except.ok (some ds_records))
    (hdk : query_dnskey mode child dnskey_response = Except.ok (some dnskey_records)) :
    query_trust mode parent child ds_response dnskey_response =
      Except.ok (some (scan_ds ds_records dnskey_records)) := by
  unfold query_trust
  rw [hds, hdk]

/-- Claim C1: `verifyTrust` (`query_trust`), when the DS and DNSKEY queries
both succeed, returns `Trusted` if and only if some DS record of the
parent answer and some DNSKEY record of the child answer have equal
key tag (the stored tag of the DS record against the derived tag of the
DNSKEY) and
equal algorithm; otherwise — in particular when the DS record set is
empty — it returns `Untrusted "missing DS"`. -/
theorem verifyTrust_matching_c1 (mode : IpFamilyMode) (parent child : Zone)
    (ds_response dnskey_response : DnsResponse)
    (ds_records : List DS) (dnskey_records : List DNSKEY)
    (hds : query_ds mode parent child.name ds_response = Except.ok (some ds_records))
    (hdk : query_dnskey mode child dnskey_response = Except.ok (some dnskey_records)) :
    (query_trust mode parent child ds_response dnskey_response =
        Except.ok (some Trust.Trusted) ↔
      ∃ ds ∈ ds_records, ∃ dnskey ∈ dnskey_records,
        ds.key_tag = dnskey.calculate_key_tag ∧ ds.algorithm = dnskey.algorithm)
    ∧ ((¬ ∃ ds ∈ ds_records, ∃ dnskey ∈ dnskey_records,
          ds.key_tag = dnskey.calculate_key_tag ∧ ds.algorithm = dnskey.algorithm) →
        query_trust mode parent child ds_response dnskey_response =
          Except.ok (some (Trust.Untrusted "missing DS"))) := by
  rw [query_trust_ok mode parent child ds_response dnskey_response
    ds_records dnskey_records hds hdk]
  constructor
  · simp only [Except.ok.injEq, Option.some.injEq]
    exact scan_ds_eq_trusted_iff ds_records dnskey_records
  · intro hne
    simp only [Except.ok.injEq, Option.some.injEq]
    rcases scan_ds_trusted_or_untrusted ds_records dnskey_records with h | h
    · exact absurd ((scan_ds_eq_trusted_iff _ _).mp h) hne
    · exact h

/-- Witness for C1: a concrete matching DS/DNSKEY pair (derived key tag
2058, algorithm 8) makes the hop `Trusted`. -/
theorem verifyTrust_matching_c1_witness :
    query_ds IpFamilyMode.Any exampleParentZone exampleChildZone.name exampleDsResponse
        = Except.ok (some [exampleDs])
    ∧ query_dnskey IpFamilyMode.Any exampleChildZone exampleDnskeyResponse
        = Except.ok (some [exampleDnskey])
    ∧ query_trust IpFamilyMode.Any exampleParentZone exampleChildZone exampleDsResponse
        exampleDnskeyResponse = Except.ok (some Trust.Trusted) := by
  refine ⟨rfl, rfl, ?_⟩
  have h := verifyTrust_matching_c1 IpFamilyMode.Any exampleParentZone exampleChildZone
    exampleDsResponse exampleDnskeyResponse [exampleDs] [exampleDnskey] rfl rfl
  exact h.1.mpr ⟨exampleDs, by simp, exampleDnskey, by simp, by decide⟩

/-! ## Helper lemmas: record collection -/

/-- When every record extracts, the unwrap-collection succeeds and returns
exactly the extracted records. -/
theorem map_unwrap_eq_some {α : Type} (f : Record → Option α) (l : List Record)
    (h : ∀ x ∈ l, (f x).isSome) : map_unwrap f l = some (l.filterMap f) := by
  induction l with
  | nil => rfl
  | cons x rest ih =>
    obtain ⟨a, ha⟩ := Option.isSome_iff_exists.mp (h x (List.mem_cons_self x rest))
    rw [map_unwrap, ha, ih (fun y hy => h y (List.mem_cons_of_mem _ hy))]
    simp [List.filterMap_cons, ha]

/-- When any record fails to extract, the unwrap-collection panics. -/
theorem map_unwrap_eq_none {α : Type} (f : Record → Option α) (l : List Record)
    (h : ∃ x ∈ l, f x = none) : map_unwrap f l = none := by
  induction l with
  | nil =>
    obtain ⟨x, hx, _⟩ := h
    exact absurd hx (List.not_mem_nil x)
  | cons x rest ih =>
    obtain ⟨y, hy, hyn⟩ := h
    rcases List.mem_cons.mp hy with heq | hy2
    · subst heq
      cases hrest : map_unwrap f rest <;> simp [map_unwrap, hyn, hrest]
    · have hrest := ih ⟨y, hy2, hyn⟩
      cases hfx : f x <;> simp [map_unwrap, hfx, hrest]

/-- Claim C4: `verifyTrust` (`query_trust`) returns the error
`"no name server address found"` exactly when address selection over the
nameservers of the parent zone or over the nameservers of the child zone yields
nothing for the configured family mode, and an empty-but-successfully-
queried DS record set is not an error but the normal
`Untrusted "missing DS"` verdict.  (The DS answer section is assumed
well-formed, so that the collection step does not abort the process
before the child-side address selection is reached.) -/
theorem verifyTrust_error_c4 (mode : IpFamilyMode) (parent child : Zone)
    (ds_response dnskey_response : DnsResponse)
    (hwf : ∀ r ∈ ds_response.answers, (ds_record_data r).isSome) :
    (query_trust mode parent child ds_response dnskey_response =
        Except.error "no name server address found" ↔
      (random_address parent.nameservers mode = none ∨
        random_address child.nameservers mode = none))
    ∧ (∀ keys, ds_response.answers = [] →
        collect_dnskey dnskey_response = some keys →
        query_trust mode parent child ds_response dnskey_response ≠
          Except.error "no name server address found" →
        query_trust mode parent child ds_response dnskey_response =
          Except.ok (some (Trust.Untrusted "missing DS"))) := by
  have hcds : collect_ds ds_response = some (specDsPresent ds_response) :=
    map_unwrap_eq_some _ _ hwf
  cases hp : random_address parent.nameservers mode with
  | none =>
    have hqt : query_trust mode parent child ds_response dnskey_response =
        Except.error "no name server address found" := by
      unfold query_trust query_ds
      rw [hp]
    constructor
    · rw [hqt]
      simp
    · intro keys _ _ hne
      exact absurd hqt hne
  | some a =>
    have hqds : query_ds mode parent child.name ds_response =
        Except.ok (some (specDsPresent ds_response)) := by
      unfold query_ds
      rw [hp, hcds]
    cases hc : random_address child.nameservers mode with
    | none =>
      have hqt : query_trust mode parent child ds_response dnskey_response =
          Except.error "no name server address found" := by
        unfold query_trust
        rw [hqds]
        unfold query_dnskey
        rw [hc]
      constructor
      · rw [hqt]
        simp
      · intro keys _ _ hne
        exact absurd hqt hne
    | some b =>
      have hqdk : query_dnskey mode child dnskey_response =
          Except.ok (collect_dnskey dnskey_response) := by
        unfold query_dnskey
        rw [hc]
      constructor
      · constructor
        · intro habs
          cases hck : collect_dnskey dnskey_response with
          | none =>
            have hok : query_trust mode parent child ds_response dnskey_response =
                Except.ok none := by
              unfold query_trust
              rw [hqds, hqdk, hck]
            exact absurd (hok.symm.trans habs) (by simp)
          | some keys =>
            have hqdk2 : query_dnskey mode child dnskey_response =
                Except.ok (some keys) := by
              rw [hqdk, hck]
            have hok := query_trust_ok mode parent child ds_response dnskey_response
              (specDsPresent ds_response) keys hqds hqdk2
            exact absurd (hok.symm.trans habs) (by simp)
        · rintro (h | h)
          · exact absurd h (by simp [hp])
          · exact absurd h (by simp [hc])
      · intro keys hanswers hck _
        have hqds0 : query_ds mode parent child.name ds_response =
            Except.ok (some []) := by
          rw [hqds]
          simp [specDsPresent, hanswers]
        have hqdk2 : query_dnskey mode child dnskey_response =
            Except.ok (some keys) := by
          rw [hqdk, hck]
        rw [query_trust_ok mode parent child ds_response dnskey_response [] keys hqds0 hqdk2]
        rfl

/-- Witness for C4: a glueless parent zone makes the hop fail with the
error, not a verdict. -/
theorem verifyTrust_error_c4_witness :
    (∀ r ∈ exampleDsResponse.answers, (ds_record_data r).isSome)
    ∧ query_trust IpFamilyMode.Any exampleGluelessZone exampleChildZone
        exampleDsResponse exampleDnskeyResponse =
        Except.error "no name server address found" := by
  refine ⟨by decide, ?_⟩
  have h := verifyTrust_error_c4 IpFamilyMode.Any exampleGluelessZone exampleChildZone
    exampleDsResponse exampleDnskeyResponse (by decide)
  exact h.1.mpr (Or.inl rfl)

/-- Claim C6, counterexample: the record-collection step is not total — a
response whose answer section mixes a DS record with an A record makes the
DS collection panic (`none`) instead of returning the DS records present
(`[exampleDs]`). -/
theorem recordCollection_c6_counterexample :
    collect_ds exampleMixedDsResponse = none
    ∧ specDsPresent exampleMixedDsResponse = [exampleDs]
    ∧ collect_ds exampleMixedDsResponse ≠ some (specDsPresent exampleMixedDsResponse) := by
  refine ⟨rfl, rfl, fun h => ?_⟩
  have h2 : (none : Option (List DS)) = some (specDsPresent exampleMixedDsResponse) := h
  exact Option.noConfusion h2

/-- Claim C6, amended: the record-collection step of the trust verifier
returns exactly the DS (respectively DNSKEY) records present in the answer
section when every answer-section record is a DS (respectively DNSKEY)
record; an answer-section record of any other type instead makes the
collection panic — the step is not total over mixed record types. -/
theorem recordCollection_c6_amended (ds_response dnskey_response : DnsResponse)
    (hds : ∀ r ∈ ds_response.answers, (ds_record_data r).isSome)
    (hdk : ∀ r ∈ dnskey_response.answers, (dnskey_record_data r).isSome) :
    collect_ds ds_response = some (specDsPresent ds_response)
    ∧ collect_dnskey dnskey_response = some (specDnskeyPresent dnskey_response)
    ∧ (∀ r2 : DnsResponse, (∃ r ∈ r2.answers, ds_record_data r = none) →
        collect_ds r2 = none)
    ∧ (∀ r2 : DnsResponse, (∃ r ∈ r2.answers, dnskey_record_data r = none) →
        collect_dnskey r2 = none) := by
  refine ⟨map_unwrap_eq_some _ _ hds, map_unwrap_eq_some _ _ hdk, ?_, ?_⟩
  · intro r2 hex
    exact map_unwrap_eq_none _ _ hex
  · intro r2 hex
    exact map_unwrap_eq_none _ _ hex

/-- Witness for the amended C6 at the all-DS and all-DNSKEY responses. -/
theorem recordCollection_c6_amended_witness :
    (∀ r ∈ exampleDsResponse.answers, (ds_record_data r).isSome)
    ∧ collect_ds exampleDsResponse = some [exampleDs] := by
  refine ⟨by decide, ?_⟩
  have h := recordCollection_c6_amended exampleDsResponse exampleDnskeyResponse
    (by decide) (by decide)
  exact h.1

/-! ## Helper lemmas: zone resolution -/

/-- The `to_ns` loop in closed form: one entry per NS target, in scan
order, each carrying its matching glue addresses. -/
theorem to_ns_records_spec (additionals : List Record) (records : List Record) :
    to_ns_records additionals records =
      (records.filterMap (fun r => r.data.bind RData.as_ns)).map
        (fun ns =>
          { name := ns,
            addresses :=
              (additionals.filter (fun x => decide (x.name = ns))).filterMap
                into_address }) := by
  induction records with
  | nil => rfl
  | cons r rest ih =>
    cases hd : r.data.bind RData.as_ns <;>
      simp [to_ns_records, hd, List.filterMap_cons, ih]

/-- Claim C5: zone resolution (`to_ns`) scans the answer section followed by
the authority section for NS records and builds one `Nameserver` entry per
NS record found, in scan order, even when the entry has zero resolved
addresses; the address list of each entry is exactly the A and AAAA records
of the additional section owned by the target name of the entry, in section
order, other record types ignored.  In particular, the round-trip example
(NS `ns1.example.` and `ns2.example.` with respective glue 192.0.2.1 and
2001:db8::1) yields exactly two entries, each with its single address. -/
theorem zoneResolution_to_ns_c5 :
    (∀ response : DnsResponse,
      (to_ns response).map Nameserver.name = specNsTargets response
      ∧ ∀ e ∈ to_ns response, e.addresses = specGlueAddresses response e.name)
    ∧ to_ns exampleNsResponse =
      [ ⟨⟨["ns1", "example"]⟩, [IpAddr.v4 0xC0000201]⟩,
        ⟨⟨["ns2", "example"]⟩, [IpAddr.v6 0x20010DB8000000000000000000000001]⟩ ] := by
  constructor
  · intro response
    rw [to_ns, to_ns_records_spec, specNsTargets]
    constructor
    · rw [List.map_map]
      exact List.map_id _
    · intro e he
      simp only [List.mem_map] at he
      obtain ⟨ns, _, rfl⟩ := he
      rfl
  · rfl

/-- Witness for C5: the first entry of the round-trip example carries
exactly its glue address. -/
theorem zoneResolution_to_ns_c5_witness :
    Nameserver.mk ⟨["ns1", "example"]⟩ [IpAddr.v4 0xC0000201] ∈ to_ns exampleNsResponse
    ∧ (Nameserver.mk ⟨["ns1", "example"]⟩ [IpAddr.v4 0xC0000201]).addresses
        = specGlueAddresses exampleNsResponse ⟨["ns1", "example"]⟩ := by
  refine ⟨by decide, ?_⟩
  exact (zoneResolution_to_ns_c5.1 exampleNsResponse).2 _ (by decide)

/-! ## The walk driver claims -/

/-- Claim C7: a hop whose address selection over the last known zone yields
nothing produces exactly one error line, with reason
`"no usable address found for nameserver"`, and does not abort the walk;
since the last known zone is then left unchanged, every subsequent hop of
the run deterministically fails address selection with the same error
(cascading), one line per hop until the end of the run. -/
theorem walk_cascading_error_c7 (mode : IpFamilyMode) (zone : Zone)
    (hops : List ((Name × Name) × HopInput))
    (hnone : random_address zone.nameservers mode = none) :
    walk mode zone hops =
      hops.map (fun _ => HopOutcome.error "no usable address found for nameserver")
    ∧ (walk mode zone hops).length = hops.length := by
  have hmap : walk mode zone hops =
      hops.map (fun _ => HopOutcome.error "no usable address found for nameserver") := by
    induction hops with
    | nil => rfl
    | cons h rest ih =>
      obtain ⟨pc, inp⟩ := h
      rw [walk, hnone]
      simp only [List.map_cons]
      exact congrArg₂ _ rfl ih
  exact ⟨hmap, by rw [hmap, List.length_map]⟩

/-- Witness for C7: a glueless last known zone turns a two-hop walk into
two identical error lines. -/
theorem walk_cascading_error_c7_witness :
    random_address exampleGluelessZone.nameservers IpFamilyMode.Any = none
    ∧ walk IpFamilyMode.Any exampleGluelessZone
        [ ((⟨["example"]⟩, ⟨["child", "example"]⟩), exampleHopInput),
          ((⟨["child", "example"]⟩, ⟨["gc", "child", "example"]⟩), exampleHopInput) ] =
        [ HopOutcome.error "no usable address found for nameserver",
          HopOutcome.error "no usable address found for nameserver" ] := by
  refine ⟨rfl, ?_⟩
  exact (walk_cascading_error_c7 IpFamilyMode.Any exampleGluelessZone
    [ ((⟨["example"]⟩, ⟨["child", "example"]⟩), exampleHopInput),
      ((⟨["child", "example"]⟩, ⟨["gc", "child", "example"]⟩), exampleHopInput) ] rfl).1

/-- Claim C9: whenever an address is selected for a hop, the last known zone
is replaced by the newly resolved child zone (built from the child name and
the NS response of the hop), and the remaining walk proceeds from that child
zone regardless of whether the trust check of the hop produced a verdict
(`Trusted` or `Untrusted`) or an error; whenever no address is selected,
the remaining walk proceeds from the unchanged last known zone. -/
theorem walk_last_zone_c9 (mode : IpFamilyMode) (zone : Zone)
    (pc : Name × Name) (inp : HopInput) (rest : List ((Name × Name) × HopInput)) :
    (∀ a, random_address zone.nameservers mode = some a →
      (∀ t, query_trust mode zone (query_zone pc.2 inp.ns_response) inp.ds_response
          inp.dnskey_response = Except.ok (some t) →
        walk mode zone ((pc, inp) :: rest) =
          HopOutcome.trust t :: walk mode (query_zone pc.2 inp.ns_response) rest)
      ∧ (∀ m, query_trust mode zone (query_zone pc.2 inp.ns_response) inp.ds_response
          inp.dnskey_response = Except.error m →
        walk mode zone ((pc, inp) :: rest) =
          HopOutcome.error m :: walk mode (query_zone pc.2 inp.ns_response) rest))
    ∧ (random_address zone.nameservers mode = none →
        walk mode zone ((pc, inp) :: rest) =
          HopOutcome.error "no usable address found for nameserver" ::
            walk mode zone rest) := by
  constructor
  · intro a ha
    constructor
    · intro t ht
      rw [walk, ha]
      simp only
      rw [ht]
    · intro m hm
      rw [walk, ha]
      simp only
      rw [hm]
  · intro h
    rw [walk, h]

/-- Witness for C9: with a usable parent address the one-hop walk reports
the trust verdict and continues from the resolved child zone. -/
theorem walk_last_zone_c9_witness :
    random_address exampleParentZone.nameservers IpFamilyMode.Any =
      some (IpAddr.v4 0xC0000201)
    ∧ query_trust IpFamilyMode.Any exampleParentZone
        (query_zone ⟨["child", "example"]⟩ exampleNsResponse) exampleDsResponse
        exampleDnskeyResponse = Except.ok (some Trust.Trusted)
    ∧ walk IpFamilyMode.Any exampleParentZone
        [((⟨["example"]⟩, ⟨["child", "example"]⟩), exampleHopInput)] =
        [HopOutcome.trust Trust.Trusted] := by
  refine ⟨rfl, rfl, ?_⟩
  have h := (walk_last_zone_c9 IpFamilyMode.Any exampleParentZone
    (⟨["example"]⟩, ⟨["child", "example"]⟩) exampleHopInput []).1
    (IpAddr.v4 0xC0000201) rfl
  exact h.1 Trust.Trusted rfl

/-- Witness for C3: with mode `Ipv4`, an IPv6 address ahead of an IPv4
address in the same nameserver is skipped. -/
theorem selectAddress_first_match_c3_witness :
    random_address [⟨⟨["ns1", "example"]⟩, [IpAddr.v6 1, IpAddr.v4 2]⟩] IpFamilyMode.Ipv4 =
      specSelectAddress [⟨⟨["ns1", "example"]⟩, [IpAddr.v6 1, IpAddr.v4 2]⟩]
        IpFamilyMode.Ipv4 :=
  (selectAddress_first_match_c3 [⟨⟨["ns1", "example"]⟩, [IpAddr.v6 1, IpAddr.v4 2]⟩]
    IpFamilyMode.Ipv4).1
